import Mathlib

/-!
Verification of moonrhythm/httpproxy (main.go) against its specification.

The Go program is shallowly embedded: Go strings and byte slices are lists
of byte values (`List Nat`, each < 256 in practice), `http.Header` is an
association list from header name to the list of its values, and the
handlers become pure Lean functions taking the results of the external
collaborators (dialer, hijacker, HTTP transport) as explicit oracle
arguments.  The two-goroutine tunnel relay is embedded as a small-step
transition system over all interleavings.
-/

/-- Go strings / byte slices: a list of byte values. -/
abbrev GoStr := List Nat

/-- Bytes of an ASCII Lean string literal (all literals used are ASCII). -/
def ascii (s : String) : GoStr := s.data.map Char.toNat

/-- `http.Header`: association list from header name to its values.
Go's `map[string][]string` has unique keys; theorems that need uniqueness
take it as a hypothesis. -/
abbrev Header := List (GoStr × List GoStr)

/-- Valid header-field byte per Go `net/textproto` (`validHeaderFieldByte`):
letters, digits and the token specials. -/
def validTokenByte (c : Nat) : Bool :=
  decide (48 ≤ c ∧ c ≤ 57) || decide (65 ≤ c ∧ c ≤ 90) || decide (97 ≤ c ∧ c ≤ 122) ||
    [33, 35, 36, 37, 38, 39, 42, 43, 45, 46, 94, 95, 96, 124, 126].contains c

/-- Case normalisation loop of `textproto.CanonicalMIMEHeaderKey`: uppercase
the first byte and every byte following a hyphen, lowercase the rest. -/
def canonAux : Bool → List Nat → List Nat
  | _, [] => []
  | upper, c :: rest =>
    let c' :=
      if upper && decide (97 ≤ c) && decide (c ≤ 122) then c - 32
      else if !upper && decide (65 ≤ c) && decide (c ≤ 90) then c + 32
      else c
    c' :: canonAux (c' == 45) rest

/-- `textproto.CanonicalMIMEHeaderKey`: keys containing an invalid byte are
returned unchanged, otherwise the canonical capitalisation is produced. -/
def canonicalKey (s : GoStr) : GoStr :=
  if s.all validTokenByte then canonAux true s else s

/-- `http.Header.Get`: first value under the canonicalised key, "" if none. -/
def headerGet (hs : Header) (k : GoStr) : GoStr :=
  match hs.find? (fun e => e.1 == canonicalKey k) with
  | some (_, v :: _) => v
  | _ => []

/-- `http.Header.Del`: remove the canonicalised key. -/
def headerDel (hs : Header) (k : GoStr) : Header :=
  hs.filter (fun e => !(e.1 == canonicalKey k))

/-- `http.Header.Add`: canonicalise the key and append the value to its
value slice (creating the entry if absent). -/
def addHeader (hs : Header) (k v : GoStr) : Header :=
  let ck := canonicalKey k
  if hs.any (fun e => e.1 == ck) then
    hs.map (fun e => if e.1 == ck then (e.1, e.2 ++ [v]) else e)
  else
    hs ++ [(ck, [v])]

/-- All values stored under key `k` (flattening duplicate entries; a Go map
has at most one entry per key). -/
def getAll (hs : Header) (k : GoStr) : List GoStr :=
  ((hs.filter (fun e => e.1 == k)).map (fun e => e.2)).flatten

/-- `subtle.ConstantTimeCompare(a, b) == 1`: true iff the two byte slices
have equal length and equal contents (the timing behaviour is not modelled,
only the verdict). -/
def constantTimeEq (a b : GoStr) : Bool := a == b

/-- ASCII lowercasing of one byte. -/
def lowerByte (c : Nat) : Nat := if 65 ≤ c ∧ c ≤ 90 then c + 32 else c

/-- `strings.EqualFold` restricted to the byte level: ASCII
case-insensitive equality.  This coincides with Go's rune-based simple case
folding whenever one side is pure ASCII, which holds at the single call
site (the literal `"Basic "`): no non-ASCII rune simple-folds onto any of
its six byte-length-one characters inside a six-byte window. -/
def equalFold (a b : GoStr) : Bool := a.map lowerByte == b.map lowerByte

/-- Byte of the standard base64 alphabet at index `n` (< 64). -/
def b64Char (n : Nat) : Nat :=
  if n < 26 then 65 + n
  else if n < 52 then 71 + n
  else if n < 62 then n - 4
  else if n = 62 then 43 else 47

/-- `base64.StdEncoding.EncodeToString`: canonical padded encoding. -/
def base64Encode : List Nat → List Nat
  | [] => []
  | [a] => [b64Char (a / 4), b64Char (a % 4 * 16), 61, 61]
  | [a, b] => [b64Char (a / 4), b64Char (a % 4 * 16 + b / 16), b64Char (b % 16 * 4), 61]
  | a :: b :: c :: rest =>
    b64Char (a / 4) :: b64Char (a % 4 * 16 + b / 16) ::
      b64Char (b % 16 * 4 + c / 64) :: b64Char (c % 64) :: base64Encode rest

/-- Index of a byte in the standard base64 alphabet. -/
def b64Index (c : Nat) : Option Nat :=
  if 65 ≤ c ∧ c ≤ 90 then some (c - 65)
  else if 97 ≤ c ∧ c ≤ 122 then some (c - 71)
  else if 48 ≤ c ∧ c ≤ 57 then some (c + 4)
  else if c = 43 then some 62
  else if c = 47 then some 63
  else none

/-- `base64.StdEncoding.DecodeString` in its default (non-strict) mode on
inputs without line breaks: four-byte groups, `=`-padding only at the end,
trailing padding bits ignored (not required to be zero). -/
def base64Decode : List Nat → Option (List Nat)
  | [] => some []
  | c1 :: c2 :: c3 :: c4 :: rest =>
    match b64Index c1, b64Index c2 with
    | some a, some b =>
      if c3 = 61 then
        if c4 = 61 ∧ rest = [] then some [a * 4 + b / 16] else none
      else
        match b64Index c3 with
        | some x =>
          if c4 = 61 then
            if rest = [] then some [a * 4 + b / 16, b % 16 * 16 + x / 4] else none
          else
            match b64Index c4 with
            | some y =>
              (base64Decode rest).map
                (fun tail => (a * 4 + b / 16) :: (b % 16 * 16 + x / 4) :: (x % 4 * 64 + y) :: tail)
            | none => none
        | none => none
    | _, _ => none
  | _ => none

/-- Startup configuration: `-token`, `-auth-user`, `-auth-pass` flags. -/
structure Config where
  token : GoStr
  user : GoStr
  pass : GoStr
deriving DecidableEq

/-- The parts of `*http.Request` the program reads. -/
structure Request where
  method : GoStr
  requestURI : GoStr
  host : GoStr
  headers : Header
deriving DecidableEq

/-- The header carrying proxy credentials. -/
def proxyAuthName : GoStr := ascii "Proxy-Authorization"

/-- The `"Basic "` marker expected by the Basic authenticator. -/
def basicMarker : GoStr := ascii "Basic "

/-- Bearer `Authenticate` closure (main.go lines 48-56): read the
credential header, delete it from the request, succeed iff it equals the
configured token under constant-time comparison.  Returns the verdict and
the mutated request. -/
def bearerAuthenticate (cfg : Config) (req : Request) : Bool × Request :=
  let reqToken := headerGet req.headers proxyAuthName
  let req' := { req with headers := headerDel req.headers proxyAuthName }
  (constantTimeEq reqToken cfg.token, req')

/-- Basic `Authenticate` closure (main.go lines 60-75): read and delete the
credential header, require the case-insensitive `"Basic "` marker, then
constant-time-compare the remainder with the startup-computed
`base64(user + ":" + pass)`. -/
def basicAuthenticate (cfg : Config) (req : Request) : Bool × Request :=
  let auth := headerGet req.headers proxyAuthName
  let req' := { req with headers := headerDel req.headers proxyAuthName }
  let authStr := base64Encode (cfg.user ++ [58] ++ cfg.pass)
  let ok :=
    if auth.length < basicMarker.length then false
    else if !(equalFold (auth.take basicMarker.length) basicMarker) then false
    else constantTimeEq (auth.drop basicMarker.length) authStr
  (ok, req')

/-- Middleware stack registered by `main` (lines 45-77): Bearer when a
token is configured, then Basic when both user and password are. -/
def middlewares (cfg : Config) : List (Request → Bool × Request) :=
  (if cfg.token ≠ [] then [bearerAuthenticate cfg] else []) ++
    (if cfg.user ≠ [] ∧ cfg.pass ≠ [] then [basicAuthenticate cfg] else [])

/-- Verdict of the middleware pipeline. -/
inductive AuthOutcome where
  | rejected : AuthOutcome
  | passed : Request → AuthOutcome
deriving DecidableEq

/-- Run the stacked `authn.Authenticator` middlewares in order.  Per spec
§4.1, a failing check rejects the request before it reaches the
dispatcher; a passing check forwards the (mutated) request to the next. -/
def runChecks : List (Request → Bool × Request) → Request → AuthOutcome
  | [], req => .passed req
  | f :: fs, req =>
    let r := f req
    if r.1 then runChecks fs r.2 else .rejected

/-- The complete authentication pipeline in front of the dispatcher. -/
def runPipeline (cfg : Config) (req : Request) : AuthOutcome :=
  runChecks (middlewares cfg) req

/-- Result of `dialer.DialContext` in `handleTunnel`. -/
inductive DialResult where
  | ok : DialResult
  | err : GoStr → DialResult
deriving DecidableEq

/-- Result of the `w.(http.Hijacker).Hijack()` line: the writer may not
implement `http.Hijacker` (the type assertion fails), or `Hijack` may
return an error, or it may succeed. -/
inductive HijackResult where
  | ok : HijackResult
  | hijackErr : GoStr → HijackResult
  | notHijacker : HijackResult
deriving DecidableEq

/-- Observable outcome of one `handleTunnel` invocation up to the point
where the two copy goroutines take over (their interleaving is modelled
separately as `TStep`).  `response` is the status and body written through
`http.Error`, `bannerWritten` records whether the literal
`"HTTP/1.1 200 OK\n\n"` success banner was written to the raw socket. -/
structure TunnelOutcome where
  response : Option (Nat × GoStr)
  upstreamDialed : Bool
  upstreamClosed : Bool
  clientClosed : Bool
  bannerWritten : Bool
  copyLoopsSpawned : Nat
  tunnelEstablished : Bool
  panicked : Bool
deriving DecidableEq

/-- The literal success banner written on tunnel establishment. -/
def tunnelBanner : GoStr := ascii "HTTP/1.1 200 OK\n\n"

/-- `handleTunnel` (main.go lines 105-131).  A failed dial yields a 503
carrying the error text (`http.Error` appends a newline) and nothing else
happens.  After a successful dial `upstream.Close()` is deferred, so it
runs on every later exit, including panic unwinding: a failed `Hijacker`
type assertion panics (no response is written), a `Hijack` error yields a
500, and on success the banner is written, both sockets are eventually
closed by the deferred calls, and two copy goroutines are spawned. -/
def handleTunnel (dial : DialResult) (hijack : HijackResult) : TunnelOutcome :=
  match dial with
  | .err e => ⟨some (503, e ++ [10]), false, false, false, false, 0, false, false⟩
  | .ok =>
    match hijack with
    | .notHijacker => ⟨none, true, true, false, false, 0, false, true⟩
    | .hijackErr e => ⟨some (500, e ++ [10]), true, true, false, false, 0, false, false⟩
    | .ok => ⟨none, true, true, true, true, 2, true, false⟩

/-- Upstream `*http.Response` as read by `handleHTTP`. -/
structure UpstreamResponse where
  status : Nat
  headers : Header
  body : GoStr
deriving DecidableEq

/-- Result of `httpTransport.RoundTrip`. -/
inductive TransportResult where
  | ok : UpstreamResponse → TransportResult
  | err : GoStr → TransportResult
deriving DecidableEq

/-- Observable outcome of one `handleHTTP` invocation: the request handed
to the transport (`none` when `RoundTrip` was never invoked) and the
status, headers and body written to the client.  For the `http.Error` and
`http.NotFound` branches only the status and body text are modelled. -/
structure RelayOutcome where
  transportRequest : Option Request
  status : Nat
  responseHeaders : Header
  body : GoStr
deriving DecidableEq

/-- Body written by `http.NotFound`. -/
def notFoundBody : GoStr := ascii "404 page not found\n"

/-- The header-removal block of `handleHTTP` (main.go lines 159-162). -/
def stripTrust (r : Request) : Request :=
  { r with
    headers :=
      headerDel (headerDel (headerDel r.headers (ascii "X-Real-Ip"))
        (ascii "X-Forwarded-For")) (ascii "X-Forwarded-Proto") }

/-- The response-header copy loop of `handleHTTP` (lines 170-174), folded
over the entries of `resp.Header` in the order produced by Go's map
iteration (passed in as `entries`). -/
def copyRespHeaders (entries : List (GoStr × List GoStr)) (w : Header) : Header :=
  entries.foldl (fun acc e => e.2.foldl (fun acc2 vv => addHeader acc2 e.1 vv) acc) w

/-- `handleHTTP` (main.go lines 153-177).  `transport` is the
`httpTransport.RoundTrip` oracle; `iter` supplies the (unspecified) Go map
iteration order over the response headers — theorems about it hypothesise
that it is a permutation of `resp.headers`. -/
def handleHTTP (r : Request) (transport : Request → TransportResult)
    (iter : UpstreamResponse → List (GoStr × List GoStr)) : RelayOutcome :=
  if !((ascii "http://").isPrefixOf r.requestURI) then
    { transportRequest := none, status := 404, responseHeaders := [], body := notFoundBody }
  else
    let r' := stripTrust r
    match transport r' with
    | .err e =>
      { transportRequest := some r', status := 503, responseHeaders := [], body := e ++ [10] }
    | .ok resp =>
      { transportRequest := some r', status := resp.status,
        responseHeaders := copyRespHeaders (iter resp) [], body := resp.body }

/-- State of the relay phase of one established tunnel (main.go lines
123-131 plus `conCopier`): the handler spawns goroutine A (`copyToDst`)
and goroutine B (`copyToSrc`), receives once from the 1-buffered channel
`errc`, then returns, running its deferred `client.Close()` and
`upstream.Close()`.  Each goroutine's `copyBuffer` finishes when its
source reaches end-of-stream or errors — in particular, closing either
socket forces a pending read/write to fail, so completion is always
possible; `finishA`/`finishB` model this environment as unconditionally
enabled once spawned.  `chanBuf` counts messages buffered in `errc`. -/
structure TState where
  aSpawned : Bool
  bSpawned : Bool
  aCopyDone : Bool
  bCopyDone : Bool
  aSent : Bool
  bSent : Bool
  received : Bool
  returned : Bool
  chanBuf : Nat
  clientCloses : Nat
  upstreamCloses : Nat
deriving DecidableEq

/-- Initial relay state: banner written, nothing spawned yet. -/
def initTS : TState :=
  ⟨false, false, false, false, false, false, false, false, 0, 0, 0⟩

/-- One atomic step of the tunnel relay, over all interleavings of the
handler and the two copy goroutines.  Sends on the capacity-1 channel are
enabled only while the buffer is empty; the single receive is enabled
while a message is buffered.  `ret` runs both deferred closes. -/
inductive TStep : TState → TState → Prop where
  | spawnA (s : TState) : s.aSpawned = false → TStep s { s with aSpawned := true }
  | spawnB (s : TState) : s.aSpawned = true → s.bSpawned = false →
      TStep s { s with bSpawned := true }
  | finishA (s : TState) : s.aSpawned = true → s.aCopyDone = false →
      TStep s { s with aCopyDone := true }
  | finishB (s : TState) : s.bSpawned = true → s.bCopyDone = false →
      TStep s { s with bCopyDone := true }
  | sendA (s : TState) : s.aCopyDone = true → s.aSent = false → s.chanBuf = 0 →
      TStep s { s with aSent := true, chanBuf := 1 }
  | sendB (s : TState) : s.bCopyDone = true → s.bSent = false → s.chanBuf = 0 →
      TStep s { s with bSent := true, chanBuf := 1 }
  | recv (s : TState) : s.bSpawned = true → s.received = false → s.chanBuf = 1 →
      TStep s { s with received := true, chanBuf := 0 }
  | ret (s : TState) : s.received = true → s.returned = false →
      TStep s
        { s with
          returned := true
          clientCloses := s.clientCloses + 1
          upstreamCloses := s.upstreamCloses + 1 }

/-- Relay states reachable from the establishment point. -/
def TReach (s : TState) : Prop := Relation.ReflTransGen TStep initTS s

/-- A request carrying one proxy-credential header with value `v`. -/
def mkReq (v : GoStr) : Request :=
  ⟨ascii "GET", ascii "http://example.com/", ascii "example.com",
    [(proxyAuthName, [v])]⟩

theorem equalFold_refl (s : GoStr) : equalFold s s = true := by
  simp [equalFold]

theorem headerGet_headerDel (hs : Header) (k : GoStr) :
    headerGet (headerDel hs k) k = [] := by
  unfold headerGet headerDel
  have hnone : (hs.filter fun e => !(e.1 == canonicalKey k)).find?
      (fun e => e.1 == canonicalKey k) = none := by
    rw [List.find?_eq_none]
    intro x hx
    have hmem := (List.mem_filter.mp hx).2
    simp at hmem ⊢
    exact hmem
  rw [hnone]

theorem headerGet_mkReq (v : GoStr) :
    headerGet (mkReq v).headers proxyAuthName = v := by
  have hcanon : canonicalKey proxyAuthName = proxyAuthName := by decide
  unfold headerGet mkReq
  rw [hcanon]
  simp

theorem basicMarker_length : basicMarker.length = 6 := by decide

/-- The Basic verdict as a function of the presented header value. -/
theorem basicAuthenticate_verdict (cfg : Config) (v : GoStr) :
    (basicAuthenticate cfg (mkReq v)).1 =
      (if v.length < 6 then false
       else if !(equalFold (v.take 6) basicMarker) then false
       else v.drop 6 == base64Encode (cfg.user ++ [58] ++ cfg.pass)) := by
  unfold basicAuthenticate
  rw [headerGet_mkReq, basicMarker_length]
  rfl

/-- With a `"Basic "`-prefixed value, the verdict is byte-for-byte equality
of the remainder with the startup-computed canonical encoding. -/
theorem basicAuthenticate_marker (cfg : Config) (s : GoStr) :
    (basicAuthenticate cfg (mkReq (basicMarker ++ s))).1 =
      (s == base64Encode (cfg.user ++ [58] ++ cfg.pass)) := by
  rw [basicAuthenticate_verdict]
  have hlen : (basicMarker ++ s).length = 6 + s.length := by
    simp [basicMarker_length]
  have htake : (basicMarker ++ s).take 6 = basicMarker := by
    rw [show 6 = basicMarker.length from rfl]
    exact List.take_left basicMarker s
  have hdrop : (basicMarker ++ s).drop 6 = s := by
    rw [show 6 = basicMarker.length from rfl]
    exact List.drop_left basicMarker s
  rw [hlen, htake, hdrop, equalFold_refl]
  simp

/-- With both auth modes configured, the Bearer middleware deletes the
credential header before the Basic middleware runs, so the Basic check
always reads an empty value and rejects: the composed pipeline rejects
every request. -/
theorem bothModesReject (cfg : Config) (req : Request) (ht : cfg.token ≠ [])
    (hu : cfg.user ≠ []) (hp : cfg.pass ≠ []) :
    runPipeline cfg req = .rejected := by
  unfold runPipeline middlewares
  rw [if_pos ht, if_pos ⟨hu, hp⟩]
  show runChecks ([bearerAuthenticate cfg] ++ [basicAuthenticate cfg]) req = .rejected
  cases hb : (bearerAuthenticate cfg req).1 with
  | false => simp [runChecks, hb]
  | true =>
    simp only [List.singleton_append, runChecks, hb, if_pos]
    have hdel : (bearerAuthenticate cfg req).2.headers = headerDel req.headers proxyAuthName := rfl
    have hempty : headerGet (bearerAuthenticate cfg req).2.headers proxyAuthName = [] := by
      rw [hdel, headerGet_headerDel]
    have hbasic : (basicAuthenticate cfg (bearerAuthenticate cfg req).2).1 = false := by
      unfold basicAuthenticate
      rw [hempty]
      rfl
    simp [runChecks, hbasic]

theorem set_ne_of_ne (l : List Nat) (i : Nat) (h : i < l.length) (b : Nat)
    (hne : b ≠ l[i]) : l.set i b ≠ l := by
  intro heq
  have h2 : (l.set i b)[i]? = some b := List.getElem?_set_eq_of_lt b h
  rw [heq, List.getElem?_eq_getElem h] at h2
  exact hne (Option.some.inj h2).symm

/-- Claim C2, counterexample: with `token = "Basic dTpw"`, `user = "u"`,
`pass = "p"` and a request presenting `Proxy-Authorization: Basic dTpw`,
each configured check succeeds on its own criteria against the inbound
request, yet the composed pipeline rejects the request (the Bearer
middleware strips the header before the Basic middleware reads it), so
the stacked checks are not independent and no request passes. -/
theorem stacked_checks_not_independent :
    (bearerAuthenticate ⟨ascii "Basic dTpw", ascii "u", ascii "p"⟩
      (mkReq (ascii "Basic dTpw"))).1 = true ∧
    (basicAuthenticate ⟨ascii "Basic dTpw", ascii "u", ascii "p"⟩
      (mkReq (ascii "Basic dTpw"))).1 = true ∧
    runPipeline ⟨ascii "Basic dTpw", ascii "u", ascii "p"⟩
      (mkReq (ascii "Basic dTpw")) = .rejected := by
  decide

/-- Claim C2, amended: when both the Bearer and the Basic modes are
configured simultaneously, the stacked middleware checks interfere — the
Bearer check deletes the proxy-credential header before the Basic check
runs, so the Basic check always observes an empty credential and fails —
and therefore the composed pipeline rejects every request. -/
theorem both_modes_reject_every_request (cfg : Config) (req : Request)
    (ht : cfg.token ≠ []) (hu : cfg.user ≠ []) (hp : cfg.pass ≠ []) :
    runPipeline cfg req = .rejected :=
  bothModesReject cfg req ht hu hp

theorem both_modes_reject_every_request_witness :
    runPipeline ⟨ascii "tok", ascii "u", ascii "p"⟩ (mkReq (ascii "tok")) = .rejected :=
  both_modes_reject_every_request ⟨ascii "tok", ascii "u", ascii "p"⟩
    (mkReq (ascii "tok")) (by decide) (by decide) (by decide)

/-- Claim C4: with Basic mode configured for the pair `(u, p)`, a request
presenting `"Basic "` followed by the standard base64 encoding of
`u ++ ":" ++ p` authenticates successfully; mutating any single byte of
the encoded part fails authentication; and in general the (total, hence
crash-free) verdict is true exactly for a value that is at least six bytes
long, starts with the case-insensitive `"Basic "` marker, and continues
with precisely the canonical encoding. -/
theorem basic_auth_roundtrip (u p : GoStr) (hu : u ≠ []) (hp : p ≠ []) :
    ((basicAuthenticate ⟨[], u, p⟩
        (mkReq (basicMarker ++ base64Encode (u ++ [58] ++ p)))).1 = true) ∧
    (∀ i, ∀ hi : i < (base64Encode (u ++ [58] ++ p)).length, ∀ b,
      b ≠ (base64Encode (u ++ [58] ++ p))[i] →
      (basicAuthenticate ⟨[], u, p⟩
        (mkReq (basicMarker ++ (base64Encode (u ++ [58] ++ p)).set i b))).1 = false) ∧
    (∀ v, (basicAuthenticate ⟨[], u, p⟩ (mkReq v)).1 = true ↔
      6 ≤ v.length ∧ equalFold (v.take 6) basicMarker = true ∧
        v.drop 6 = base64Encode (u ++ [58] ++ p)) := by
  refine ⟨?_, ?_, ?_⟩
  · rw [basicAuthenticate_marker]
    simp
  · intro i hi b hb
    rw [basicAuthenticate_marker]
    have hne : (base64Encode (u ++ [58] ++ p)).set i b ≠ base64Encode (u ++ [58] ++ p) :=
      set_ne_of_ne _ i hi b hb
    simpa using hne
  · intro v
    rw [basicAuthenticate_verdict]
    by_cases h1 : v.length < 6
    · rw [if_pos h1]
      simp
      intro h6
      omega
    · rw [if_neg h1]
      by_cases h2 : equalFold (v.take 6) basicMarker = true
      · rw [h2]
        simp [h2]
        omega
      · have h2f : equalFold (v.take 6) basicMarker = false := by
          simpa using h2
        rw [h2f]
        simp [h2f]

theorem basic_auth_roundtrip_witness :
    (basicAuthenticate ⟨[], ascii "u", ascii "p"⟩
      (mkReq (basicMarker ++ base64Encode (ascii "u" ++ [58] ++ ascii "p")))).1 = true :=
  (basic_auth_roundtrip (ascii "u") (ascii "p") (by decide) (by decide)).1

/-- Claim C10: the Basic authenticator never base64-decodes the presented
credential: after the `"Basic "` marker it succeeds exactly on the
byte-for-byte canonical padded encoding of `user ++ ":" ++ pass`.
Concretely, for the pair `("u", "pp")` the alternative spelling
`"dTpwcB=="` decodes (under Go's default non-strict decoder) to the same
`u:pp` bytes as the canonical `"dTpwcA=="`, yet fails authentication. -/
theorem basic_auth_compares_canonical_encoding :
    (∀ u p s, (basicAuthenticate ⟨[], u, p⟩ (mkReq (basicMarker ++ s))).1 = true ↔
      s = base64Encode (u ++ [58] ++ p)) ∧
    base64Decode (ascii "dTpwcB==") = some (ascii "u" ++ [58] ++ ascii "pp") ∧
    base64Encode (ascii "u" ++ [58] ++ ascii "pp") = ascii "dTpwcA==" ∧
    base64Decode (ascii "dTpwcA==") = some (ascii "u" ++ [58] ++ ascii "pp") ∧
    ascii "dTpwcB==" ≠ ascii "dTpwcA==" ∧
    (basicAuthenticate ⟨[], ascii "u", ascii "pp"⟩
      (mkReq (basicMarker ++ ascii "dTpwcB=="))).1 = false := by
  refine ⟨?_, by decide, by decide, by decide, by decide, by decide⟩
  intro u p s
  rw [basicAuthenticate_marker]
  exact beq_iff_eq

/-- Claim C3, counterexample: when the server layer cannot supply a raw
client socket (the response writer does not implement `http.Hijacker`),
the unchecked type assertion `w.(http.Hijacker)` panics: no 500 response
is written, contradicting the claim that this case yields an internal
error response. -/
theorem hijacker_assertion_panics :
    (handleTunnel .ok .notHijacker).response = none ∧
    (handleTunnel .ok .notHijacker).panicked = true := by
  decide

/-- Claim C3, amended: for a CONNECT request whose dial succeeded, if the
`Hijack` call fails the handler responds with a 500 internal error
carrying the error text, terminates without establishing a tunnel, spawns
no copy loops, and the deferred close releases the already-dialed upstream
connection; if instead the server layer cannot supply a raw client socket
(the writer is not a `Hijacker`), the handler panics without writing a
response — the deferred close still releases the upstream connection. -/
theorem hijack_failure_closes_upstream (e : GoStr) :
    ((handleTunnel .ok (.hijackErr e)).response = some (500, e ++ [10]) ∧
     (handleTunnel .ok (.hijackErr e)).upstreamClosed = true ∧
     (handleTunnel .ok (.hijackErr e)).tunnelEstablished = false ∧
     (handleTunnel .ok (.hijackErr e)).copyLoopsSpawned = 0 ∧
     (handleTunnel .ok (.hijackErr e)).bannerWritten = false ∧
     (handleTunnel .ok (.hijackErr e)).panicked = false) ∧
    ((handleTunnel .ok .notHijacker).panicked = true ∧
     (handleTunnel .ok .notHijacker).upstreamClosed = true ∧
     (handleTunnel .ok .notHijacker).tunnelEstablished = false ∧
     (handleTunnel .ok .notHijacker).copyLoopsSpawned = 0) :=
  ⟨⟨rfl, rfl, rfl, rfl, rfl, rfl⟩, rfl, rfl, rfl, rfl⟩

/-- Claim C5: for a CONNECT request whose dial to the target fails, the
client receives a 503 response carrying the error text, the literal
success banner is never written, no copy-loop goroutines are spawned, and
no tunnel is established — whatever the hijack oracle would have said. -/
theorem dial_failure_yields_503 (e : GoStr) (hijack : HijackResult) :
    (handleTunnel (.err e) hijack).response = some (503, e ++ [10]) ∧
    (handleTunnel (.err e) hijack).bannerWritten = false ∧
    (handleTunnel (.err e) hijack).copyLoopsSpawned = 0 ∧
    (handleTunnel (.err e) hijack).tunnelEstablished = false ∧
    (handleTunnel (.err e) hijack).upstreamDialed = false ∧
    (handleTunnel (.err e) hijack).upstreamClosed = false :=
  ⟨rfl, rfl, rfl, rfl, rfl, rfl⟩

/-- Claim C6: for every non-CONNECT request whose request target does not
begin with `http://`, `handleHTTP` writes the standard 404 not-found
response and never invokes the transport. -/
theorem relay_rejects_non_http (r : Request) (transport : Request → TransportResult)
    (iter : UpstreamResponse → List (GoStr × List GoStr))
    (h : (ascii "http://").isPrefixOf r.requestURI = false) :
    (handleHTTP r transport iter).status = 404 ∧
    (handleHTTP r transport iter).transportRequest = none ∧
    (handleHTTP r transport iter).body = notFoundBody := by
  unfold handleHTTP
  rw [h]
  exact ⟨rfl, rfl, rfl⟩

theorem relay_rejects_non_http_witness :
    (handleHTTP { mkReq (ascii "x") with requestURI := ascii "example.com:443" }
      (fun _ => .err []) (fun resp => resp.headers)).status = 404 ∧
    (handleHTTP { mkReq (ascii "x") with requestURI := ascii "example.com:443" }
      (fun _ => .err []) (fun resp => resp.headers)).transportRequest = none := by
  refine ⟨?_, ?_⟩
  · exact (relay_rejects_non_http { mkReq (ascii "x") with requestURI := ascii "example.com:443" }
      (fun _ => .err []) (fun resp => resp.headers) (by decide)).1
  · exact (relay_rejects_non_http { mkReq (ascii "x") with requestURI := ascii "example.com:443" }
      (fun _ => .err []) (fun resp => resp.headers) (by decide)).2.1

theorem handleHTTP_transportRequest (r : Request) (transport : Request → TransportResult)
    (iter : UpstreamResponse → List (GoStr × List GoStr)) (fr : Request)
    (h : (handleHTTP r transport iter).transportRequest = some fr) : fr = stripTrust r := by
  unfold handleHTTP at h
  cases hp : (ascii "http://").isPrefixOf r.requestURI with
  | false => rw [hp] at h; simp at h
  | true =>
    rw [hp] at h
    simp only [Bool.not_true, Bool.false_eq_true, if_false] at h
    cases htr : transport (stripTrust r) with
    | ok resp =>
      rw [htr] at h
      exact (Option.some.inj (by simpa using h)).symm
    | err e =>
      rw [htr] at h
      exact (Option.some.inj (by simpa using h)).symm

theorem bool_and_reorder (x y z : Bool) : ((z && y) && x) = (x && (y && z)) := by
  cases x <;> cases y <;> cases z <;> rfl

/-- The three `Header.Del` calls of `handleHTTP` amount to one filter. -/
theorem stripTrust_headers (r : Request) :
    (stripTrust r).headers = r.headers.filter
      (fun e => !(e.1 == ascii "X-Real-Ip") && (!(e.1 == ascii "X-Forwarded-For") &&
        !(e.1 == ascii "X-Forwarded-Proto"))) := by
  have c1 : canonicalKey (ascii "X-Real-Ip") = ascii "X-Real-Ip" := by decide
  have c2 : canonicalKey (ascii "X-Forwarded-For") = ascii "X-Forwarded-For" := by decide
  have c3 : canonicalKey (ascii "X-Forwarded-Proto") = ascii "X-Forwarded-Proto" := by decide
  show (headerDel (headerDel (headerDel r.headers (ascii "X-Real-Ip"))
      (ascii "X-Forwarded-For")) (ascii "X-Forwarded-Proto")) = _
  unfold headerDel
  rw [c1, c2, c3, List.filter_filter, List.filter_filter]
  exact List.filter_congr (fun a _ => bool_and_reorder _ _ _)

/-- Claim C7: for every relay request that is forwarded, the request
handed to the transport carries the inbound headers with exactly the
`X-Real-Ip`, `X-Forwarded-For` and `X-Forwarded-Proto` entries removed:
those names are absent (in any capitalisation of a parser-canonicalised
inbound header) and every other inbound header entry is passed through
unchanged. -/
theorem relay_strips_trust_headers (r : Request) (transport : Request → TransportResult)
    (iter : UpstreamResponse → List (GoStr × List GoStr)) (fr : Request)
    (hcanon : ∀ e ∈ r.headers, canonicalKey e.1 = e.1)
    (h : (handleHTTP r transport iter).transportRequest = some fr) :
    fr.headers = r.headers.filter
      (fun e => !(e.1 == ascii "X-Real-Ip") && (!(e.1 == ascii "X-Forwarded-For") &&
        !(e.1 == ascii "X-Forwarded-Proto"))) ∧
    (∀ e ∈ fr.headers, canonicalKey e.1 ≠ ascii "X-Real-Ip" ∧
      canonicalKey e.1 ≠ ascii "X-Forwarded-For" ∧
      canonicalKey e.1 ≠ ascii "X-Forwarded-Proto") ∧
    (∀ e ∈ r.headers, e.1 ≠ ascii "X-Real-Ip" → e.1 ≠ ascii "X-Forwarded-For" →
      e.1 ≠ ascii "X-Forwarded-Proto" → e ∈ fr.headers) := by
  have hfr : fr = stripTrust r := handleHTTP_transportRequest r transport iter fr h
  subst hfr
  rw [stripTrust_headers]
  refine ⟨rfl, ?_, ?_⟩
  · intro e he
    have hmem := List.mem_filter.mp he
    have hpred := hmem.2
    have hc := hcanon e hmem.1
    simp at hpred
    rw [hc]
    exact ⟨hpred.1, hpred.2.1, hpred.2.2⟩
  · intro e he h1 h2 h3
    exact List.mem_filter.mpr ⟨he, by simp [h1, h2, h3]⟩

/-- Concrete request used to witness claim C7. -/
def reqC7 : Request :=
  ⟨ascii "GET", ascii "http://t/", ascii "t",
    [(ascii "X-Real-Ip", [ascii "1.2.3.4"]), (ascii "Accept", [ascii "a"])]⟩

theorem relay_strips_trust_headers_witness :
    (stripTrust reqC7).headers = reqC7.headers.filter
      (fun e => !(e.1 == ascii "X-Real-Ip") && (!(e.1 == ascii "X-Forwarded-For") &&
        !(e.1 == ascii "X-Forwarded-Proto"))) :=
  (relay_strips_trust_headers reqC7 (fun _ => .err []) (fun resp => resp.headers)
    (stripTrust reqC7) (by decide) (by decide)).1

theorem addHeader_eq_append (w : Header) (k v : GoStr) (hck : canonicalKey k = k)
    (hnot : ∀ e ∈ w, e.1 ≠ k) : addHeader w k v = w ++ [(k, [v])] := by
  have hany : w.any (fun e => e.1 == k) = false := by
    simp only [List.any_eq_false]
    intro e he
    simpa using hnot e he
  simp [addHeader, hck, hany]

theorem addHeader_snoc (w : Header) (k : GoStr) (acc : List GoStr) (v : GoStr)
    (hck : canonicalKey k = k) (hnot : ∀ e ∈ w, e.1 ≠ k) :
    addHeader (w ++ [(k, acc)]) k v = w ++ [(k, acc ++ [v])] := by
  have hany : (w ++ [(k, acc)]).any (fun e => e.1 == k) = true := by simp
  have hmap : w.map (fun e => if e.1 = k then (e.1, e.2 ++ [v]) else e) = w := by
    have h1 : ∀ e ∈ w, (if e.1 = k then (e.1, e.2 ++ [v]) else e) = (fun e => e) e :=
      fun e he => if_neg (hnot e he)
    rw [List.map_congr_left h1]
    exact List.map_id w
  simp [addHeader, hck, hany]
  exact hmap

theorem innerFold_snoc (vs : List GoStr) : ∀ (w : Header) (k : GoStr) (acc : List GoStr),
    canonicalKey k = k → (∀ e ∈ w, e.1 ≠ k) →
    vs.foldl (fun a vv => addHeader a k vv) (w ++ [(k, acc)]) = w ++ [(k, acc ++ vs)] := by
  induction vs with
  | nil => intro w k acc _ _; simp
  | cons v vs' ih =>
    intro w k acc hck hnot
    rw [List.foldl_cons, addHeader_snoc w k acc v hck hnot, ih w k (acc ++ [v]) hck hnot,
      List.append_assoc]
    rfl

theorem innerFold (vs : List GoStr) (hne : vs ≠ []) (w : Header) (k : GoStr)
    (hck : canonicalKey k = k) (hnot : ∀ e ∈ w, e.1 ≠ k) :
    vs.foldl (fun a vv => addHeader a k vv) w = w ++ [(k, vs)] := by
  cases vs with
  | nil => exact absurd rfl hne
  | cons v vs' =>
    rw [List.foldl_cons, addHeader_eq_append w k v hck hnot,
      innerFold_snoc vs' w k [v] hck hnot]
    rfl

/-- Folding `Header.Add` over response entries with pairwise-distinct,
already-canonical keys and nonempty value slices reproduces the entries
verbatim after the accumulator. -/
theorem copyFold (entries : List (GoStr × List GoStr)) : ∀ (w : Header),
    ((w ++ entries).map (fun e => e.1)).Nodup →
    (∀ e ∈ entries, canonicalKey e.1 = e.1) →
    (∀ e ∈ entries, e.2 ≠ []) →
    copyRespHeaders entries w = w ++ entries := by
  induction entries with
  | nil => intro w _ _ _; simp [copyRespHeaders]
  | cons e es ih =>
    intro w hnd hcanon hnonempty
    have hck := hcanon e (List.mem_cons_self e es)
    have hvne := hnonempty e (List.mem_cons_self e es)
    have hnot : ∀ x ∈ w, x.1 ≠ e.1 := by
      intro x hx hxe
      rw [List.map_append, List.nodup_append] at hnd
      exact hnd.2.2 (List.mem_map_of_mem _ hx) (by rw [List.map_cons]; exact hxe ▸ List.mem_cons_self _ _)
    show (e :: es).foldl (fun acc x => x.2.foldl (fun acc2 vv => addHeader acc2 x.1 vv) acc) w = _
    rw [List.foldl_cons]
    rw [show e.2.foldl (fun acc2 vv => addHeader acc2 e.1 vv) w = w ++ [(e.1, e.2)] from
      innerFold e.2 hvne w e.1 hck hnot]
    have heta : ((e.1, e.2) : GoStr × List GoStr) = e := rfl
    rw [heta]
    have hnd' : (((w ++ [e]) ++ es).map (fun x => x.1)).Nodup := by
      rw [List.append_assoc]
      simpa using hnd
    have := ih (w ++ [e]) hnd' (fun x hx => hcanon x (List.mem_cons_of_mem e hx))
      (fun x hx => hnonempty x (List.mem_cons_of_mem e hx))
    rw [show es.foldl (fun acc x => x.2.foldl (fun acc2 vv => addHeader acc2 x.1 vv) acc)
      (w ++ [e]) = (w ++ [e]) ++ es from this]
    rw [List.append_assoc]
    rfl

theorem perm_eq_of_length_le_one {l₁ l₂ : Header} (h : l₁.Perm l₂)
    (hl : l₂.length ≤ 1) : l₁ = l₂ := by
  cases l₂ with
  | nil => exact h.eq_nil
  | cons x xs =>
    cases xs with
    | nil => exact List.perm_singleton.mp h
    | cons y ys => simp at hl

theorem filter_key_length_le_one (l : Header)
    (hnd : (l.map (fun e => e.1)).Nodup) (k : GoStr) :
    (l.filter (fun e => e.1 == k)).length ≤ 1 := by
  induction l with
  | nil => simp
  | cons e es ih =>
    simp only [List.map_cons, List.nodup_cons] at hnd
    by_cases hk : e.1 = k
    · have hnil : es.filter (fun x => x.1 == k) = [] := by
        rw [List.filter_eq_nil_iff]
        intro x hx hxk
        have hx1 : x.1 = e.1 := by
          have : x.1 = k := by simpa using hxk
          rw [this, hk]
        exact hnd.1 (hx1 ▸ List.mem_map_of_mem _ hx)
      rw [List.filter_cons]
      simp [hk, hnil]
    · rw [List.filter_cons]
      have : (e.1 == k) = false := by simpa using hk
      simp only [this, cond_false]
      exact ih hnd.2

theorem getAll_perm {l₁ l₂ : Header} (h : l₁.Perm l₂)
    (hnd : (l₂.map (fun e => e.1)).Nodup) (k : GoStr) :
    getAll l₁ k = getAll l₂ k := by
  unfold getAll
  rw [perm_eq_of_length_le_one (h.filter (fun e => e.1 == k))
    (filter_key_length_le_one l₂ hnd k)]

/-- Claim C8: for every relay request whose upstream exchange succeeds,
the client response headers are exactly the upstream response header
entries (same names with their case untouched, same values, same
multiplicity, order within each name preserved — the entries are
reproduced verbatim, merely in Go's arbitrary map-iteration order), and
the upstream status code is written to the client. -/
theorem relay_response_fidelity (r : Request) (transport : Request → TransportResult)
    (iter : UpstreamResponse → List (GoStr × List GoStr)) (resp : UpstreamResponse)
    (hpre : (ascii "http://").isPrefixOf r.requestURI = true)
    (htr : transport (stripTrust r) = .ok resp)
    (hperm : (iter resp).Perm resp.headers)
    (hnd : (resp.headers.map (fun e => e.1)).Nodup)
    (hcanon : ∀ e ∈ resp.headers, canonicalKey e.1 = e.1)
    (hne : ∀ e ∈ resp.headers, e.2 ≠ []) :
    ((handleHTTP r transport iter).responseHeaders).Perm resp.headers ∧
    (∀ k, getAll (handleHTTP r transport iter).responseHeaders k = getAll resp.headers k) ∧
    (handleHTTP r transport iter).status = resp.status := by
  have houtcome : handleHTTP r transport iter =
      { transportRequest := some (stripTrust r), status := resp.status,
        responseHeaders := copyRespHeaders (iter resp) [], body := resp.body } := by
    unfold handleHTTP
    rw [hpre]
    simp only [Bool.not_true, Bool.false_eq_true, if_false]
    rw [htr]
  rw [houtcome]
  have hndIter : ((iter resp).map (fun e => e.1)).Nodup :=
    ((hperm.map (fun e => e.1)).nodup_iff).mpr hnd
  have hid : copyRespHeaders (iter resp) [] = iter resp := by
    have h0 : ((([] : Header) ++ iter resp).map (fun e => e.1)).Nodup := by
      simpa using hndIter
    have := copyFold (iter resp) [] h0
      (fun e he => hcanon e (hperm.mem_iff.mp he))
      (fun e he => hne e (hperm.mem_iff.mp he))
    simpa using this
  rw [hid]
  exact ⟨hperm, fun k => getAll_perm hperm hnd k, rfl⟩

/-- Concrete upstream response used to witness claim C8 (a repeated header
name with two values, plus a single-valued one). -/
def respC8 : UpstreamResponse :=
  ⟨200, [(ascii "Content-Type", [ascii "text/plain"]),
    (ascii "Set-Cookie", [ascii "a=1", ascii "b=2"])], ascii "hello"⟩

/-- Concrete relay request used to witness claim C8. -/
def reqC8 : Request := ⟨ascii "GET", ascii "http://t/", ascii "t", []⟩

theorem relay_response_fidelity_witness :
    ((handleHTTP reqC8 (fun _ => .ok respC8)
      (fun resp => resp.headers)).responseHeaders).Perm respC8.headers ∧
    (handleHTTP reqC8 (fun _ => .ok respC8) (fun resp => resp.headers)).status =
      respC8.status :=
  ⟨(relay_response_fidelity reqC8 (fun _ => .ok respC8) (fun resp => resp.headers) respC8
      (by decide) rfl (List.Perm.refl _) (by decide) (by decide) (by decide)).1,
   (relay_response_fidelity reqC8 (fun _ => .ok respC8) (fun resp => resp.headers) respC8
      (by decide) rfl (List.Perm.refl _) (by decide) (by decide) (by decide)).2.2⟩

theorem runChecks_single (f : Request → Bool × Request) (req req' : Request)
    (h : runChecks [f] req = .passed req') : req' = (f req).2 := by
  simp only [runChecks] at h
  cases hv : (f req).1 with
  | true => simp [hv] at h; exact h.symm
  | false => simp [hv] at h

/-- Whenever at least one auth mode is configured and the pipeline passes
a request on, its headers are the inbound ones with the proxy-credential
key deleted. -/
theorem passed_headers_deleted (cfg : Config) (req req' : Request)
    (hconf : cfg.token ≠ [] ∨ (cfg.user ≠ [] ∧ cfg.pass ≠ []))
    (hpass : runPipeline cfg req = .passed req') :
    req'.headers = headerDel req.headers proxyAuthName := by
  by_cases ht : cfg.token = []
  · have hb : cfg.user ≠ [] ∧ cfg.pass ≠ [] := by
      cases hconf with
      | inl h => exact absurd ht h
      | inr h => exact h
    unfold runPipeline middlewares at hpass
    rw [if_neg (fun hc => hc ht), if_pos hb, List.nil_append] at hpass
    rw [runChecks_single (basicAuthenticate cfg) req req' hpass]
    rfl
  · by_cases hb : cfg.user ≠ [] ∧ cfg.pass ≠ []
    · have h2 := bothModesReject cfg req ht hb.1 hb.2
      rw [h2] at hpass
      exact absurd hpass (by simp)
    · unfold runPipeline middlewares at hpass
      rw [if_pos ht, if_neg hb, List.append_nil] at hpass
      rw [runChecks_single (bearerAuthenticate cfg) req req' hpass]
      rfl

/-- Claim C1, counterexample: with neither authentication mode configured
(open proxy mode) no middleware runs, so a request carrying a
proxy-credential header reaches the dispatcher with the header intact and
`handleHTTP` forwards it to the transport. -/
theorem open_mode_header_passes_through :
    runPipeline ⟨[], [], []⟩ (mkReq (ascii "secret")) = .passed (mkReq (ascii "secret")) ∧
    headerGet ((handleHTTP (mkReq (ascii "secret")) (fun _ => .err [])
        (fun resp => resp.headers)).transportRequest.getD (mkReq [])).headers
      proxyAuthName = ascii "secret" := by
  decide

/-- Claim C1, amended: whenever at least one authentication mode is
configured, the proxy-credential header is absent (under the parser's
canonical capitalisation) from every request the pipeline passes to the
dispatcher, and from the request `handleHTTP` hands to the transport; a
rejected request never reaches the dispatcher at all.  With neither mode
configured the request passes through unmodified, header included. -/
theorem credential_header_stripped (cfg : Config) (req req' : Request)
    (transport : Request → TransportResult)
    (iter : UpstreamResponse → List (GoStr × List GoStr))
    (hconf : cfg.token ≠ [] ∨ (cfg.user ≠ [] ∧ cfg.pass ≠ []))
    (hcanon : ∀ e ∈ req.headers, canonicalKey e.1 = e.1)
    (hpass : runPipeline cfg req = .passed req') :
    (∀ e ∈ req'.headers, canonicalKey e.1 ≠ proxyAuthName) ∧
    (∀ fr, (handleHTTP req' transport iter).transportRequest = some fr →
      ∀ e ∈ fr.headers, canonicalKey e.1 ≠ proxyAuthName) := by
  have hdel := passed_headers_deleted cfg req req' hconf hpass
  have habs : ∀ e ∈ req'.headers, canonicalKey e.1 ≠ proxyAuthName := by
    intro e he
    rw [hdel] at he
    have hm := List.mem_filter.mp he
    have hc := hcanon e hm.1
    have hp2 := hm.2
    have hpa : canonicalKey proxyAuthName = proxyAuthName := by decide
    rw [hpa] at hp2
    simp at hp2
    rw [hc]
    exact hp2
  refine ⟨habs, ?_⟩
  intro fr hfr e he
  have hfr' := handleHTTP_transportRequest req' transport iter fr hfr
  subst hfr'
  rw [stripTrust_headers] at he
  exact habs e (List.mem_filter.mp he).1

/-- Configuration and request used to witness claim C1. -/
def cfgC1 : Config := ⟨ascii "tok", [], []⟩

/-- Inbound request used to witness claim C1. -/
def reqC1 : Request :=
  ⟨ascii "GET", ascii "http://t/", ascii "t",
    [(ascii "Accept", [ascii "a"]), (proxyAuthName, [ascii "tok"])]⟩

/-- The request claim C1's witness expects after the Bearer middleware. -/
def reqC1' : Request :=
  ⟨ascii "GET", ascii "http://t/", ascii "t", [(ascii "Accept", [ascii "a"])]⟩

theorem credential_header_stripped_witness :
    canonicalKey (ascii "Accept") ≠ proxyAuthName :=
  (credential_header_stripped cfgC1 reqC1 reqC1' (fun _ => .err [])
      (fun resp => resp.headers) (Or.inl (by decide)) (by decide) (by decide)).1
    (ascii "Accept", [ascii "a"]) (by decide)

/-- Numeric value of a flag, for channel accounting. -/
def boolN : Bool → Nat
  | false => 0
  | true => 1

/-- Inductive invariant of the tunnel relay: channel accounting (buffered
messages plus the consumed one equal the sends), program-order facts, and
the deferred closes having run exactly when the handler returned. -/
def TInv (s : TState) : Prop :=
  s.chanBuf + boolN s.received = boolN s.aSent + boolN s.bSent ∧
  s.chanBuf ≤ 1 ∧
  (s.aSent = true → s.aCopyDone = true) ∧
  (s.aCopyDone = true → s.aSpawned = true) ∧
  (s.bSent = true → s.bCopyDone = true) ∧
  (s.bCopyDone = true → s.bSpawned = true) ∧
  (s.bSpawned = true → s.aSpawned = true) ∧
  (s.received = true → s.bSpawned = true) ∧
  (s.returned = true → s.received = true) ∧
  s.clientCloses = boolN s.returned ∧
  s.upstreamCloses = boolN s.returned

theorem TInv_init : TInv initTS := by
  refine ⟨rfl, ?_, ?_, ?_, ?_, ?_, ?_, ?_, ?_, rfl, rfl⟩ <;> simp [initTS]

theorem TInv_step {s t : TState} (hinv : TInv s) (hstep : TStep s t) : TInv t := by
  obtain ⟨h1, h2, h3, h4, h5, h6, h7, h8, h9, h10, h11⟩ := hinv
  cases hstep with
  | spawnA ha =>
    exact ⟨h1, h2, h3, fun _ => rfl, h5, h6, fun _ => rfl, h8, h9, h10, h11⟩
  | spawnB ha hb =>
    exact ⟨h1, h2, h3, h4, h5, fun _ => rfl, fun _ => ha, fun _ => rfl, h9, h10, h11⟩
  | finishA ha hd =>
    exact ⟨h1, h2, fun _ => rfl, fun _ => ha, h5, h6, h7, h8, h9, h10, h11⟩
  | finishB hb hd =>
    exact ⟨h1, h2, h3, h4, fun _ => rfl, fun _ => hb, h7, h8, h9, h10, h11⟩
  | sendA hd hs hc =>
    refine ⟨?_, le_refl 1, fun _ => hd, h4, h5, h6, h7, h8, h9, h10, h11⟩
    show 1 + boolN s.received = boolN true + boolN s.bSent
    rw [hc, hs] at h1
    simp [boolN] at h1 ⊢
    omega
  | sendB hd hs hc =>
    refine ⟨?_, le_refl 1, h3, h4, fun _ => hd, h6, h7, h8, h9, h10, h11⟩
    show 1 + boolN s.received = boolN s.aSent + boolN true
    rw [hc, hs] at h1
    simp [boolN] at h1 ⊢
    omega
  | recv hb hr hc =>
    refine ⟨?_, Nat.zero_le 1, h3, h4, h5, h6, h7, fun _ => hb, fun _ => rfl, h10, h11⟩
    show 0 + boolN true = boolN s.aSent + boolN s.bSent
    rw [hc, hr] at h1
    simp [boolN] at h1 ⊢
    omega
  | ret hr hret =>
    refine ⟨h1, h2, h3, h4, h5, h6, h7, h8, fun _ => hr, ?_, ?_⟩
    · show s.clientCloses + 1 = boolN true
      rw [hret] at h10
      simp [boolN] at h10 ⊢
      omega
    · show s.upstreamCloses + 1 = boolN true
      rw [hret] at h11
      simp [boolN] at h11 ⊢
      omega

theorem TReach_inv (s : TState) (h : TReach s) : TInv s := by
  induction h with
  | refl => exact TInv_init
  | tail _ hbc ih => exact TInv_step ih hbc

/-- Number of one-shot actions that have already happened. -/
def flagCount (s : TState) : Nat :=
  boolN s.aSpawned + boolN s.bSpawned + boolN s.aCopyDone + boolN s.bCopyDone +
    boolN s.aSent + boolN s.bSent + boolN s.received + boolN s.returned

theorem boolN_le_one (b : Bool) : boolN b ≤ 1 := by
  cases b <;> simp [boolN]

theorem TStep_flagCount {s t : TState} (h : TStep s t) :
    flagCount t = flagCount s + 1 := by
  cases h <;> simp_all [flagCount, boolN] <;> omega

theorem flagCount_le (s : TState) : flagCount s ≤ 8 := by
  have c1 := boolN_le_one s.aSpawned
  have c2 := boolN_le_one s.bSpawned
  have c3 := boolN_le_one s.aCopyDone
  have c4 := boolN_le_one s.bCopyDone
  have c5 := boolN_le_one s.aSent
  have c6 := boolN_le_one s.bSent
  have c7 := boolN_le_one s.received
  have c8 := boolN_le_one s.returned
  unfold flagCount
  omega

theorem no_infinite_relay (f : Nat → TState)
    (hstep : ∀ n, TStep (f n) (f (n + 1))) : False := by
  have hn : ∀ n, flagCount (f n) = flagCount (f 0) + n := by
    intro n
    induction n with
    | zero => rfl
    | succ n ih => rw [TStep_flagCount (hstep n), ih]; omega
  have h9 := flagCount_le (f 9)
  rw [hn 9] at h9
  omega

/-- A reachable relay state with no enabled step is fully terminated:
both copy loops have finished and reported, the handler has returned, and
both sockets are closed (exactly once). -/
theorem terminal_complete (s : TState) (hreach : TReach s)
    (hstuck : ∀ t, ¬ TStep s t) :
    s.returned = true ∧ s.aCopyDone = true ∧ s.bCopyDone = true ∧
    s.aSent = true ∧ s.bSent = true ∧ s.received = true ∧
    s.clientCloses = 1 ∧ s.upstreamCloses = 1 := by
  obtain ⟨h1, h2, h3, h4, h5, h6, h7, h8, h9, h10, h11⟩ := TReach_inv s hreach
  cases ha : s.aSpawned with
  | false => exact absurd (TStep.spawnA s ha) (hstuck _)
  | true =>
  cases hb : s.bSpawned with
  | false => exact absurd (TStep.spawnB s ha hb) (hstuck _)
  | true =>
  cases hda : s.aCopyDone with
  | false => exact absurd (TStep.finishA s ha hda) (hstuck _)
  | true =>
  cases hdb : s.bCopyDone with
  | false => exact absurd (TStep.finishB s hb hdb) (hstuck _)
  | true =>
  cases hsa : s.aSent with
  | false =>
    cases hsb : s.bSent with
    | false =>
      have hrec : s.received = false := by
        cases hr : s.received with
        | false => rfl
        | true => rw [hsa, hsb, hr] at h1; simp [boolN] at h1
      have hc0 : s.chanBuf = 0 := by
        rw [hsa, hsb, hrec] at h1
        simpa [boolN] using h1
      exact absurd (TStep.sendA s hda hsa hc0) (hstuck _)
    | true =>
      cases hr : s.received with
      | false =>
        have hc1 : s.chanBuf = 1 := by
          rw [hsa, hsb, hr] at h1
          simpa [boolN] using h1
        exact absurd (TStep.recv s hb hr hc1) (hstuck _)
      | true =>
        have hc0 : s.chanBuf = 0 := by
          rw [hsa, hsb, hr] at h1
          simp [boolN] at h1
          omega
        exact absurd (TStep.sendA s hda hsa hc0) (hstuck _)
  | true =>
    cases hsb : s.bSent with
    | false =>
      cases hr : s.received with
      | false =>
        have hc1 : s.chanBuf = 1 := by
          rw [hsa, hsb, hr] at h1
          simpa [boolN] using h1
        exact absurd (TStep.recv s hb hr hc1) (hstuck _)
      | true =>
        have hc0 : s.chanBuf = 0 := by
          rw [hsa, hsb, hr] at h1
          simp [boolN] at h1
          omega
        exact absurd (TStep.sendB s hdb hsb hc0) (hstuck _)
    | true =>
      have hr : s.received = true := by
        cases hr2 : s.received with
        | true => rfl
        | false =>
          rw [hsa, hsb, hr2] at h1
          simp [boolN] at h1
          omega
      cases hret : s.returned with
      | false => exact absurd (TStep.ret s hr hret) (hstuck _)
      | true =>
        refine ⟨rfl, rfl, rfl, rfl, rfl, hr, ?_, ?_⟩
        · rw [h10, hret]; rfl
        · rw [h11, hret]; rfl

/-- Claim C9: over all interleavings of the two copy goroutines and the
handler, (1) whenever the handler has returned, both loops were spawned,
a first completion was received from the channel, and each of the two
sockets has been closed exactly once; (2) before the return no close has
happened, so the closes happen exactly once on the single exit path;
(3) the handler can return while the second loop is still running and has
not reported — it does not wait for it; (4) every reachable state with no
enabled step has both loops finished and reported (the buffered channel
absorbs the unawaited second send, so nothing blocks forever) with both
sockets closed once; and (5) no execution is infinite — every maximal
interleaving terminates, so the unawaited loop leaks no resource under
the modelled unblock-on-close environment. -/
theorem tunnel_relay_teardown :
    (∀ s, TReach s → s.returned = true →
      s.aSpawned = true ∧ s.bSpawned = true ∧ s.received = true ∧
      s.clientCloses = 1 ∧ s.upstreamCloses = 1) ∧
    (∀ s, TReach s → s.returned = false →
      s.clientCloses = 0 ∧ s.upstreamCloses = 0) ∧
    (∃ s, TReach s ∧ s.returned = true ∧ s.bCopyDone = false ∧ s.bSent = false) ∧
    (∀ s, TReach s → (∀ t, ¬ TStep s t) →
      s.returned = true ∧ s.aCopyDone = true ∧ s.bCopyDone = true ∧
      s.aSent = true ∧ s.bSent = true ∧ s.clientCloses = 1 ∧ s.upstreamCloses = 1) ∧
    (∀ f : Nat → TState, (∀ n, TStep (f n) (f (n + 1))) → False) := by
  refine ⟨?_, ?_, ?_, ?_, no_infinite_relay⟩
  · intro s hreach hret
    obtain ⟨_, _, _, h4, _, _, h7, h8, h9, h10, h11⟩ := TReach_inv s hreach
    have hrec := h9 hret
    have hbsp := h8 hrec
    refine ⟨h7 hbsp, hbsp, hrec, ?_, ?_⟩
    · rw [h10, hret]; rfl
    · rw [h11, hret]; rfl
  · intro s hreach hret
    obtain ⟨_, _, _, _, _, _, _, _, _, h10, h11⟩ := TReach_inv s hreach
    constructor
    · rw [h10, hret]; rfl
    · rw [h11, hret]; rfl
  · refine ⟨⟨true, true, true, false, true, false, true, true, 0, 1, 1⟩, ?_, rfl, rfl, rfl⟩
    have t1 : TStep initTS ⟨true, false, false, false, false, false, false, false, 0, 0, 0⟩ :=
      TStep.spawnA initTS rfl
    have t2 : TStep ⟨true, false, false, false, false, false, false, false, 0, 0, 0⟩
        ⟨true, true, false, false, false, false, false, false, 0, 0, 0⟩ :=
      TStep.spawnB _ rfl rfl
    have t3 : TStep ⟨true, true, false, false, false, false, false, false, 0, 0, 0⟩
        ⟨true, true, true, false, false, false, false, false, 0, 0, 0⟩ :=
      TStep.finishA _ rfl rfl
    have t4 : TStep ⟨true, true, true, false, false, false, false, false, 0, 0, 0⟩
        ⟨true, true, true, false, true, false, false, false, 1, 0, 0⟩ :=
      TStep.sendA _ rfl rfl rfl
    have t5 : TStep ⟨true, true, true, false, true, false, false, false, 1, 0, 0⟩
        ⟨true, true, true, false, true, false, true, false, 0, 0, 0⟩ :=
      TStep.recv _ rfl rfl rfl
    have t6 : TStep ⟨true, true, true, false, true, false, true, false, 0, 0, 0⟩
        ⟨true, true, true, false, true, false, true, true, 0, 1, 1⟩ :=
      TStep.ret _ rfl rfl
    exact .tail (.tail (.tail (.tail (.tail (.tail .refl t1) t2) t3) t4) t5) t6
  · intro s hreach hstuck
    obtain ⟨hret, hda, hdb, hsa, hsb, _, hcc, huc⟩ := terminal_complete s hreach hstuck
    exact ⟨hret, hda, hdb, hsa, hsb, hcc, huc⟩

theorem tunnel_relay_teardown_witness :
    initTS.clientCloses = 0 ∧ initTS.upstreamCloses = 0 :=
  tunnel_relay_teardown.2.1 initTS Relation.ReflTransGen.refl rfl

theorem hijack_failure_closes_upstream_witness :
    (handleTunnel .ok (.hijackErr (ascii "boom"))).response =
      some (500, ascii "boom" ++ [10]) ∧
    (handleTunnel .ok (.hijackErr (ascii "boom"))).upstreamClosed = true :=
  ⟨(hijack_failure_closes_upstream (ascii "boom")).1.1,
   (hijack_failure_closes_upstream (ascii "boom")).1.2.1⟩

theorem dial_failure_yields_503_witness :
    (handleTunnel (.err (ascii "connection refused")) .ok).response =
      some (503, ascii "connection refused" ++ [10]) ∧
    (handleTunnel (.err (ascii "connection refused")) .ok).bannerWritten = false :=
  ⟨(dial_failure_yields_503 (ascii "connection refused") .ok).1,
   (dial_failure_yields_503 (ascii "connection refused") .ok).2.1⟩

theorem basic_auth_compares_canonical_encoding_witness :
    (basicAuthenticate ⟨[], ascii "u", ascii "pp"⟩
      (mkReq (basicMarker ++ base64Encode (ascii "u" ++ [58] ++ ascii "pp")))).1 = true :=
  (basic_auth_compares_canonical_encoding.1 (ascii "u") (ascii "pp")
    (base64Encode (ascii "u" ++ [58] ++ ascii "pp"))).mpr rfl

example : canonicalKey proxyAuthName = proxyAuthName := by decide
example : base64Encode (ascii "u:p") = ascii "dTpw" := by decide
example : base64Encode (ascii "u:pp") = ascii "dTpwcA==" := by decide
example : base64Decode (ascii "dTpwcB==") = some (ascii "u:pp") := by decide
example : (basicAuthenticate ⟨[], ascii "u", ascii "p"⟩
  ⟨ascii "GET", ascii "http://e/", ascii "e",
    [(proxyAuthName, [ascii "Basic dTpw"])]⟩).1 = true := by decide
